import Mathlib

/-!
Verification of the rotating file sink of the sysklogd logger utility
(src/logger.c).  The filesystem is modelled as an association list from
paths to file objects; every libc call the rotation code performs
(rename, access, system gzip, remove, truncate, mknod/chown, fopen,
fputs, fstat) is a small executable function on that state.  An Env
record supplies the outcomes of the two external effects the code
cannot determine itself: spurious rename failures and availability of
the external gzip program.
-/

namespace Logger

/-- A file object: its byte content and the stat attributes the
rotation code reads (mode bits, owner, group, regular-file flag). -/
structure FileObj where
  content : String
  mode : Nat
  uid : Nat
  gid : Nat
  isReg : Bool
deriving DecidableEq, Repr

/-- The filesystem: an association list from paths to file objects. -/
abbrev Fs := List (String × FileObj)

/-- Path lookup, the model of stat / access / open on an existing file. -/
def Fs.lookup : Fs → String → Option FileObj
  | [], _ => none
  | (k, v) :: rest, p => if p = k then some v else Fs.lookup rest p

/-- Drop every binding of a path. -/
def fsErase : Fs → String → Fs
  | [], _ => []
  | (k, v) :: rest, p => if k = p then fsErase rest p else (k, v) :: fsErase rest p

/-- Bind a path to a file object, replacing any previous binding. -/
def fsInsert (fs : Fs) (p : String) (f : FileObj) : Fs :=
  (p, f) :: fsErase fs p

theorem lookup_fsErase (fs : Fs) (p q : String) :
    Fs.lookup (fsErase fs p) q = if q = p then none else Fs.lookup fs q := by
  induction fs with
  | nil => simp [fsErase, Fs.lookup]
  | cons e rest ih =>
    rcases e with ⟨k, v⟩
    by_cases hkp : k = p
    · subst hkp
      by_cases hq : q = k <;> simp [fsErase, Fs.lookup, hq, ih] <;>
        simp [hq] at ih <;> simp [ih]
    · by_cases hq : q = k
      · subst hq
        simp [fsErase, Fs.lookup, hkp, Ne.symm hkp]
      · simp [fsErase, Fs.lookup, hkp, hq, ih]

theorem lookup_fsInsert (fs : Fs) (p : String) (f : FileObj) (q : String) :
    Fs.lookup (fsInsert fs p f) q = if q = p then some f else Fs.lookup fs q := by
  by_cases hqp : q = p <;> simp [fsInsert, Fs.lookup, hqp, lookup_fsErase]

/-- One event of the observable trace of a rotation: a rename attempt
with its outcome, a gzip child-process invocation, a remove, a
truncation, and a file creation. -/
inductive Event where
  | ren (src dst : String) (ok : Bool)
  | gz (p : String) (ok : Bool)
  | rm (p : String) (ok : Bool)
  | trunc (p : String)
  | creat (p : String) (ok : Bool)
deriving DecidableEq, Repr

/-- True only for file-creation events. -/
def Event.isCreat : Event → Bool
  | .creat _ _ => true
  | _ => false

/-- Outcomes of the effects outside the model: renameFail o n is true
when the rename of o to n fails even though o exists (EACCES, EXDEV,
and so on), and gzipAvail tells whether the external gzip program is
present on PATH and succeeds. -/
structure Env where
  renameFail : String → String → Bool
  gzipAvail : Bool

/-- rename(2): fails when the source is missing (the skipped case of
the aging ladder) or when the environment makes it fail; otherwise
moves the file object, replacing any file at the destination. -/
def renameSys (env : Env) (o n : String) (fs : Fs) : Bool × Fs :=
  match Fs.lookup fs o with
  | none => (false, fs)
  | some f =>
    if env.renameFail o n then (false, fs)
    else (true, fsInsert (fsErase fs o) n f)

/-- system("gzip p"): when gzip is available and p exists, gzip
replaces p with p.gz; otherwise the child fails and the filesystem is
unchanged. -/
def systemGzip (env : Env) (p : String) (fs : Fs) : Bool × Fs :=
  if env.gzipAvail then
    match Fs.lookup fs p with
    | some f => (true, fsInsert (fsErase fs p) (p ++ ".gz") f)
    | none => (false, fs)
  else (false, fs)

/-- remove(3): erases the path when present, fails silently otherwise. -/
def removeSys (p : String) (fs : Fs) : Bool × Fs :=
  match Fs.lookup fs p with
  | some _ => (true, fsErase fs p)
  | none => (false, fs)

/-- truncate(2) to length zero: empties the content of an existing
file, keeping its attributes; fails when the path is missing. -/
def truncateSys (p : String) (fs : Fs) : Bool × Fs :=
  match Fs.lookup fs p with
  | some f => (true, fsInsert fs p { f with content := "" })
  | none => (false, fs)

/-- create from logger.c: mknod(path, S_IFREG mode, 0) followed by
chown(path, uid, gid).  mknod fails when the path already exists, in
which case nothing happens. -/
def create (path : String) (mode uid gid : Nat) (fs : Fs) : Bool × Fs :=
  match Fs.lookup fs path with
  | none => (true, fsInsert fs path ⟨"", mode, uid, gid, true⟩)
  | some _ => (false, fs)

/-- The path of generation c, written snprintf style as file.c. -/
def genPath (file : String) (c : Nat) : String :=
  file ++ "." ++ toString c

/-- The path of compressed generation c, file.c.gz. -/
def gzPath (file : String) (c : Nat) : String :=
  genPath file c ++ ".gz"

/-- The first aging loop of logrotate: for cnt = num down to 3, rename
file.(cnt-1).gz to file.cnt.gz, ignoring failures. -/
def gzAgeLoop (env : Env) (file : String) : Nat → Fs → Fs × List Event
  | n + 3, fs =>
    let p := renameSys env (gzPath file (n + 2)) (gzPath file (n + 3)) fs
    let r := gzAgeLoop env file (n + 2) p.2
    (r.1, Event.ren (gzPath file (n + 2)) (gzPath file (n + 3)) p.1 :: r.2)
  | _, fs => (fs, [])

/-- The second aging loop of logrotate: for cnt = num down to 1,
rename file.(cnt-1) to file.cnt ignoring failures and, when cnt is 2
and file.2 now exists, run gzip on file.2 and then remove file.2. -/
def ageLoop (env : Env) (file : String) : Nat → Fs → Fs × List Event
  | n + 1, fs =>
    let p := renameSys env (genPath file n) (genPath file (n + 1)) fs
    let e1 := Event.ren (genPath file n) (genPath file (n + 1)) p.1
    let zr :=
      if n + 1 = 2 ∧ (Fs.lookup p.2 (genPath file 2)).isSome then
        let g := systemGzip env (genPath file 2) p.2
        let rm := removeSys (genPath file 2) g.2
        (rm.2, [Event.gz (genPath file 2) g.1, Event.rm (genPath file 2) rm.1])
      else (p.2, ([] : List Event))
    let r := ageLoop env file n zr.1
    (r.1, e1 :: (zr.2 ++ r.2))
  | 0, fs => (fs, [])

/-- Both aging ladders followed by the final rename of the active path
into slot 1; returns whether that final rename succeeded. -/
def agedRename (env : Env) (file : String) (n : Nat) (fs : Fs) :
    Bool × Fs × List Event :=
  let g := gzAgeLoop env file n fs
  let a := ageLoop env file n g.1
  let r := renameSys env file (genPath file 1) a.1
  (r.1, r.2, g.2 ++ a.2 ++ [Event.ren file (genPath file 1) r.1])

/-- logrotate from logger.c.  Stat failure returns 1.  When the size
threshold is positive, the file is regular and strictly larger than
the threshold: with a positive generation count run the aging ladders,
rename the active file to slot 1 and recreate it with the stat-ed
attributes, falling back to in-place truncation when that rename
fails; with a non-positive count just truncate in place. -/
def logrotate (env : Env) (file : String) (num sz : Int) (fs : Fs) :
    Int × Fs × List Event :=
  match Fs.lookup fs file with
  | none => (1, fs, [])
  | some st =>
    if 0 < sz ∧ st.isReg = true ∧ sz < (st.content.length : Int) then
      if 0 < num then
        let ar := agedRename env file num.toNat fs
        if ar.1 then
          let cr := create file st.mode st.uid st.gid ar.2.1
          (0, cr.2, ar.2.2 ++ [Event.creat file cr.1])
        else
          let tr := truncateSys file ar.2.1
          (0, tr.2, ar.2.2 ++ [Event.trunc file])
      else
        let tr := truncateSys file fs
        (0, tr.2, [Event.trunc file])
    else (0, fs, [])

/-- checksz from logger.c: true when the size threshold is positive
and the open file is strictly larger than it (the caller then closes
the stream and rotates). -/
def checksz (fs : Fs) (file : String) (sz : Int) : Bool :=
  if sz ≤ 0 then false
  else
    match Fs.lookup fs file with
    | some st => decide (sz < (st.content.length : Int))
    | none => false

/-- fopen(file, "a"): opens for append, creating an empty regular file
with default attributes when the path does not exist. -/
def fopenA (file : String) (fs : Fs) : Fs :=
  match Fs.lookup fs file with
  | some _ => fs
  | none => fsInsert fs file ⟨"", 420, 0, 0, true⟩

/-- An append plus fsync of one chunk to the open active file. -/
def appendFile (file : String) (s : String) (fs : Fs) : Fs :=
  match Fs.lookup fs file with
  | some f => fsInsert fs file { f with content := f.content ++ s }
  | none => fs

/-- The streaming while-fgets loop of flogit.  After each appended and
flushed chunk the size is checked; on overflow logrotate runs, the
line buffer is cleared and the goto reopen re-enters the loop with the
recreated active file (the empty buffer sends control straight back
into the fgets loop).  Returns the filesystem, the rotation event
trace and the number of logrotate invocations. -/
def streamLoop (env : Env) (file : String) (num sz : Int) :
    List String → Fs → Fs × List Event × Nat
  | [], fs => (fs, [], 0)
  | l :: rest, fs =>
    let fs1 := appendFile file l fs
    if checksz fs1 file sz then
      let lr := logrotate env file num sz fs1
      let r := streamLoop env file num sz rest (fopenA file lr.2.1)
      (r.1, lr.2.2 ++ r.2.1, r.2.2 + 1)
    else
      streamLoop env file num sz rest fs1

/-- flogit from logger.c.  With a non-empty buffer (a message given on
the invocation line) a single line plus newline is appended, flushed,
and rotation runs if the size check fires.  With an empty buffer the
streaming loop consumes the input lines. -/
def flogit (env : Env) (file : String) (num sz : Int) (buf : String)
    (lines : List String) (fs : Fs) : Int × Fs × List Event × Nat :=
  let fs0 := fopenA file fs
  if buf ≠ "" then
    let fs1 := appendFile file (buf ++ "\n") fs0
    if checksz fs1 file sz then
      let lr := logrotate env file num sz fs1
      (lr.1, lr.2.1, lr.2.2, 1)
    else (0, fs1, [], 0)
  else
    let r := streamLoop env file num sz lines fs0
    (0, r.1, r.2.1, r.2.2)

/-- Concatenation of a list of chunks, used to state what the active
file accumulates. -/
def strConcat : List String → String
  | [] => ""
  | s :: rest => s ++ strConcat rest

theorem append_ne_self (s t : String) (h : 0 < t.length) : s ++ t ≠ s := by
  intro he
  have hl := congrArg String.length he
  rw [String.length_append] at hl
  omega

theorem genPath_ne_self (file : String) (c : Nat) : genPath file c ≠ file := by
  have h : genPath file c = file ++ ("." ++ toString c) := by
    simp [genPath, String.append_assoc]
  rw [h]
  apply append_ne_self
  rw [String.length_append]
  have : ("." : String).length = 1 := rfl
  omega

theorem gzPath_ne_self (file : String) (c : Nat) : gzPath file c ≠ file := by
  have h : gzPath file c = file ++ ("." ++ toString c ++ ".gz") := by
    simp [gzPath, genPath, String.append_assoc]
  rw [h]
  apply append_ne_self
  rw [String.length_append, String.length_append]
  have : ("." : String).length = 1 := rfl
  omega

/-- Induction principle matching the shape of the gz aging loop. -/
theorem nat3Ind (P : Nat → Prop) (h0 : P 0) (h1 : P 1) (h2 : P 2)
    (hs : ∀ n, P (n + 2) → P (n + 3)) : ∀ n, P n := by
  intro n
  induction n using Nat.strong_induction_on with
  | _ n ih =>
    match n with
    | 0 => exact h0
    | 1 => exact h1
    | 2 => exact h2
    | m + 3 => exact hs m (ih (m + 2) (by omega))

theorem lookup_renameSys_ne (env : Env) (o n : String) (fs : Fs) (q : String)
    (hqo : q ≠ o) (hqn : q ≠ n) :
    Fs.lookup (renameSys env o n fs).2 q = Fs.lookup fs q := by
  unfold renameSys
  cases Fs.lookup fs o with
  | none => rfl
  | some f =>
    by_cases hf : env.renameFail o n <;>
      simp [hf, lookup_fsInsert, lookup_fsErase, hqo, hqn]

theorem lookup_systemGzip_ne (env : Env) (p : String) (fs : Fs) (q : String)
    (hqp : q ≠ p) (hqg : q ≠ p ++ ".gz") :
    Fs.lookup (systemGzip env p fs).2 q = Fs.lookup fs q := by
  unfold systemGzip
  by_cases hg : env.gzipAvail
  · cases Fs.lookup fs p with
    | none => simp [hg]
    | some f => simp [hg, lookup_fsInsert, lookup_fsErase, hqp, hqg]
  · simp [hg]

theorem lookup_removeSys_ne (p : String) (fs : Fs) (q : String) (hqp : q ≠ p) :
    Fs.lookup (removeSys p fs).2 q = Fs.lookup fs q := by
  unfold removeSys
  cases Fs.lookup fs p with
  | none => rfl
  | some f => simp [lookup_fsErase, hqp]

theorem lookup_gzAgeLoop_file (env : Env) (file : String) :
    ∀ n fs, Fs.lookup (gzAgeLoop env file n fs).1 file = Fs.lookup fs file := by
  intro n
  induction n using nat3Ind with
  | h0 => intro fs; rfl
  | h1 => intro fs; rfl
  | h2 => intro fs; rfl
  | hs m ih =>
    intro fs
    rw [gzAgeLoop]
    simp only []
    rw [ih]
    exact lookup_renameSys_ne env _ _ fs file
      (Ne.symm (gzPath_ne_self file (m + 2))) (Ne.symm (gzPath_ne_self file (m + 3)))

theorem lookup_ageLoop_file (env : Env) (file : String) :
    ∀ n fs, Fs.lookup (ageLoop env file n fs).1 file = Fs.lookup fs file := by
  intro n
  induction n with
  | zero => intro fs; rfl
  | succ m ih =>
    intro fs
    rw [ageLoop]
    simp only []
    rw [ih]
    have hren : Fs.lookup (renameSys env (genPath file m)
        (genPath file (m + 1)) fs).2 file = Fs.lookup fs file :=
      lookup_renameSys_ne env _ _ fs file
        (Ne.symm (genPath_ne_self file m)) (Ne.symm (genPath_ne_self file (m + 1)))
    split
    · simp only
      rw [lookup_removeSys_ne _ _ file (Ne.symm (genPath_ne_self file 2)),
        lookup_systemGzip_ne env _ _ file (Ne.symm (genPath_ne_self file 2))
          (Ne.symm (gzPath_ne_self file 2)),
        hren]
    · exact hren

/-- Projection of a trace event to the attempted rename pair. -/
def renOf : Event → Option (String × String)
  | .ren o n _ => some (o, n)
  | _ => none

theorem gzAgeLoop_renames (env : Env) (file : String) :
    ∀ n fs, ((gzAgeLoop env file n fs).2).filterMap renOf =
      ((List.range' 3 (n - 2)).reverse).map
        (fun c => (gzPath file (c - 1), gzPath file c)) := by
  intro n
  induction n using nat3Ind with
  | h0 => intro fs; simp [gzAgeLoop]
  | h1 => intro fs; simp [gzAgeLoop]
  | h2 => intro fs; simp [gzAgeLoop]
  | hs m ih =>
    intro fs
    rw [gzAgeLoop]
    simp only [List.filterMap]
    have hr : m + 3 - 2 = (m + 2 - 2) + 1 := by omega
    rw [hr, List.range'_concat]
    have h3 : 3 + 1 * (m + 2 - 2) = m + 3 := by omega
    rw [h3, List.reverse_append]
    simp only [List.reverse_cons, List.reverse_nil, List.nil_append,
      List.singleton_append, List.map_cons]
    have hm2 : m + 3 - 1 = m + 2 := by omega
    rw [hm2]
    exact congrArg _ (ih _)

theorem ageLoop_renames (env : Env) (file : String) :
    ∀ n fs, ((ageLoop env file n fs).2).filterMap renOf =
      ((List.range' 1 n).reverse).map
        (fun c => (genPath file (c - 1), genPath file c)) := by
  intro n
  induction n with
  | zero => intro fs; simp [ageLoop]
  | succ m ih =>
    intro fs
    rw [ageLoop]
    simp only []
    rw [List.range'_concat]
    have h1 : 1 + 1 * m = m + 1 := by omega
    rw [h1, List.reverse_append]
    simp only [List.reverse_cons, List.reverse_nil, List.nil_append,
      List.singleton_append, List.map_cons]
    have hm : m + 1 - 1 = m := by omega
    rw [hm]
    split
    · simp only [List.filterMap_cons, List.filterMap_append, renOf]
      rw [ih]
      simp [renOf]
    · simp only [List.filterMap_cons, List.filterMap_append, renOf,
        List.nil_append, List.filterMap_nil]
      rw [ih]

theorem gzAgeLoop_no_creat (env : Env) (file : String) :
    ∀ n fs e, e ∈ (gzAgeLoop env file n fs).2 → e.isCreat = false := by
  intro n
  induction n using nat3Ind with
  | h0 => intro fs e he; simp [gzAgeLoop] at he
  | h1 => intro fs e he; simp [gzAgeLoop] at he
  | h2 => intro fs e he; simp [gzAgeLoop] at he
  | hs m ih =>
    intro fs e he
    rw [gzAgeLoop] at he
    simp only [List.mem_cons] at he
    rcases he with he | he
    · subst he; rfl
    · exact ih _ e he

theorem ageLoop_no_creat (env : Env) (file : String) :
    ∀ n fs e, e ∈ (ageLoop env file n fs).2 → e.isCreat = false := by
  intro n
  induction n with
  | zero => intro fs e he; simp [ageLoop] at he
  | succ m ih =>
    intro fs e he
    rw [ageLoop] at he
    simp only [List.mem_cons, List.mem_append] at he
    rcases he with he | he
    · subst he; rfl
    rcases he with he | he
    · revert he
      split
      · intro he
        simp only [List.mem_cons, List.not_mem_nil] at he
        rcases he with he | he | he
        · subst he; rfl
        · subst he; rfl
        · exact absurd he (by simp)
      · intro he
        simp at he
    · exact ih _ e he

theorem logrotate_success (env : Env) (file : String) (num sz : Int) (fs : Fs)
    (f : FileObj) (hf : Fs.lookup fs file = some f) (hreg : f.isReg = true)
    (hsz : 0 < sz) (hover : sz < (f.content.length : Int)) (hnum : 1 ≤ num)
    (hrf : env.renameFail file (genPath file 1) = false) :
    (logrotate env file num sz fs).1 = 0 ∧
    Fs.lookup (logrotate env file num sz fs).2.1 file =
      some ⟨"", f.mode, f.uid, f.gid, true⟩ ∧
    Fs.lookup (logrotate env file num sz fs).2.1 (genPath file 1) = some f ∧
    ∀ q, q ≠ file → Fs.lookup (logrotate env file num sz fs).2.1 q =
      Fs.lookup (agedRename env file num.toNat fs).2.1 q := by
  have hl : Fs.lookup (ageLoop env file num.toNat
      (gzAgeLoop env file num.toNat fs).1).1 file = some f := by
    rw [lookup_ageLoop_file, lookup_gzAgeLoop_file, hf]
  have har1 : (agedRename env file num.toNat fs).1 = true := by
    unfold agedRename
    simp only [renameSys, hl, hrf]
    simp
  have har2 : (agedRename env file num.toNat fs).2.1 =
      fsInsert (fsErase (ageLoop env file num.toNat
        (gzAgeLoop env file num.toNat fs).1).1 file) (genPath file 1) f := by
    unfold agedRename
    simp only [renameSys, hl, hrf]
    simp
  have hnone : Fs.lookup (agedRename env file num.toNat fs).2.1 file = none := by
    rw [har2, lookup_fsInsert, if_neg (Ne.symm (genPath_ne_self file 1)),
      lookup_fsErase, if_pos rfl]
  have hcr : create file f.mode f.uid f.gid (agedRename env file num.toNat fs).2.1 =
      (true, fsInsert (agedRename env file num.toNat fs).2.1 file
        ⟨"", f.mode, f.uid, f.gid, true⟩) := by
    unfold create
    rw [hnone]
  have heq : logrotate env file num sz fs =
      (0, fsInsert (agedRename env file num.toNat fs).2.1 file
          ⟨"", f.mode, f.uid, f.gid, true⟩,
        (agedRename env file num.toNat fs).2.2 ++ [Event.creat file true]) := by
    simp only [logrotate, hf]
    rw [if_pos ⟨hsz, hreg, hover⟩, if_pos (by omega : (0 : Int) < num)]
    simp only [har1, if_pos, hcr]
  rw [heq]
  refine ⟨rfl, ?_, ?_, ?_⟩
  · simp [lookup_fsInsert]
  · rw [lookup_fsInsert, if_neg (genPath_ne_self file 1), har2, lookup_fsInsert,
      if_pos rfl]
  · intro q hq
    simp [lookup_fsInsert, hq]

theorem logrotate_rename_fail (env : Env) (file : String) (num sz : Int)
    (fs : Fs) (f : FileObj) (hf : Fs.lookup fs file = some f)
    (hreg : f.isReg = true) (hsz : 0 < sz)
    (hover : sz < (f.content.length : Int)) (hnum : 1 ≤ num)
    (hrf : env.renameFail file (genPath file 1) = true) :
    (logrotate env file num sz fs).1 = 0 ∧
    Fs.lookup (logrotate env file num sz fs).2.1 file =
      some ⟨"", f.mode, f.uid, f.gid, f.isReg⟩ ∧
    ((logrotate env file num sz fs).2.2).all (fun e => !e.isCreat) = true := by
  have hl : Fs.lookup (ageLoop env file num.toNat
      (gzAgeLoop env file num.toNat fs).1).1 file = some f := by
    rw [lookup_ageLoop_file, lookup_gzAgeLoop_file, hf]
  have har1 : (agedRename env file num.toNat fs).1 = false := by
    unfold agedRename
    simp only [renameSys, hl, hrf]
    simp
  have har2 : (agedRename env file num.toNat fs).2.1 =
      (ageLoop env file num.toNat (gzAgeLoop env file num.toNat fs).1).1 := by
    unfold agedRename
    simp only [renameSys, hl, hrf]
    simp
  have htr : truncateSys file (agedRename env file num.toNat fs).2.1 =
      (true, fsInsert (agedRename env file num.toNat fs).2.1 file
        ⟨"", f.mode, f.uid, f.gid, f.isReg⟩) := by
    unfold truncateSys
    rw [har2, hl]
  have heq : logrotate env file num sz fs =
      (0, fsInsert (agedRename env file num.toNat fs).2.1 file
          ⟨"", f.mode, f.uid, f.gid, f.isReg⟩,
        (agedRename env file num.toNat fs).2.2 ++ [Event.trunc file]) := by
    simp only [logrotate, hf]
    rw [if_pos ⟨hsz, hreg, hover⟩, if_pos (by omega : (0 : Int) < num)]
    simp only [har1, Bool.false_eq_true, if_false, htr]
  rw [heq]
  refine ⟨rfl, by simp [lookup_fsInsert], ?_⟩
  rw [List.all_eq_true]
  intro e he
  simp only [List.mem_append, List.mem_singleton] at he
  rcases he with he | he
  · unfold agedRename at he
    simp only [List.mem_append, List.mem_singleton] at he
    rcases he with (he | he) | he
    · rw [gzAgeLoop_no_creat env file num.toNat fs e he]; rfl
    · rw [ageLoop_no_creat env file num.toNat _ e he]; rfl
    · subst he; rfl
  · subst he; rfl

theorem streamLoop_steady (env : Env) (file : String) (num sz : Int)
    (hsz : 0 < sz) :
    ∀ (lines : List String) (fs : Fs) (f : FileObj),
      Fs.lookup fs file = some f →
      (∀ i ∈ List.range (lines.length + 1),
          ((f.content ++ strConcat (lines.take i)).length : Int) ≤ sz) →
      (streamLoop env file num sz lines fs).2.2 = 0 ∧
      (streamLoop env file num sz lines fs).2.1 = [] ∧
      Fs.lookup (streamLoop env file num sz lines fs).1 file =
        some ⟨f.content ++ strConcat lines, f.mode, f.uid, f.gid, f.isReg⟩ ∧
      ∀ q, q ≠ file → Fs.lookup (streamLoop env file num sz lines fs).1 q =
        Fs.lookup fs q := by
  intro lines
  induction lines with
  | nil =>
    intro fs f hf hb
    refine ⟨rfl, rfl, ?_, fun q _ => rfl⟩
    simpa [streamLoop, strConcat, String.append_empty] using hf
  | cons l rest ih =>
    intro fs f hf hb
    have hle : ((f.content ++ l).length : Int) ≤ sz := by
      have h1 := hb 1 (by simp)
      simpa [strConcat, String.append_empty] using h1
    have happ : appendFile file l fs =
        fsInsert fs file ⟨f.content ++ l, f.mode, f.uid, f.gid, f.isReg⟩ := by
      simp [appendFile, hf]
    have hchk : checksz (appendFile file l fs) file sz = false := by
      rw [happ]
      unfold checksz
      rw [if_neg (by omega : ¬ sz ≤ 0), lookup_fsInsert, if_pos rfl]
      exact decide_eq_false (by change ¬ sz < ((f.content ++ l).length : Int); omega)
    have hb2 : ∀ i ∈ List.range (rest.length + 1),
        (((f.content ++ l) ++ strConcat (rest.take i)).length : Int) ≤ sz := by
      intro i hi
      have hmem : i + 1 ∈ List.range ((l :: rest).length + 1) := by
        simp only [List.mem_range] at hi ⊢
        simp [List.length_cons]
        omega
      have := hb (i + 1) hmem
      simpa [strConcat, List.take_succ_cons, String.append_assoc] using this
    obtain ⟨hn, hev, hcontent, hframe⟩ :=
      ih (appendFile file l fs) ⟨f.content ++ l, f.mode, f.uid, f.gid, f.isReg⟩
        (by rw [happ]; simp [lookup_fsInsert]) hb2
    rw [streamLoop]
    simp only [hchk, Bool.false_eq_true, if_false]
    refine ⟨hn, hev, ?_, ?_⟩
    · rw [hcontent]
      simp [strConcat, String.append_assoc]
    · intro q hq
      rw [hframe q hq, happ, lookup_fsInsert, if_neg hq]

/-- The streaming write that pushes the active file over the threshold
triggers exactly one rotation; the pre-rotation content lands in slot
1 and the recreated active file accumulates only the later chunks. -/
theorem rotate_step (env : Env) (file : String) (num sz : Int) (f : FileObj)
    (l : String) (rest : List String) (fs : Fs)
    (hf : Fs.lookup fs file = some f) (hreg : f.isReg = true)
    (henv : env.renameFail = fun _ _ => false)
    (hnum : 1 ≤ num) (hsz : 0 < sz)
    (hover : sz < ((f.content ++ l).length : Int))
    (hrest : ∀ i ∈ List.range (rest.length + 1),
        ((strConcat (rest.take i)).length : Int) ≤ sz) :
    (flogit env file num sz "" (l :: rest) fs).2.2.2 = 1 ∧
    Fs.lookup (flogit env file num sz "" (l :: rest) fs).2.1 (genPath file 1) =
      some ⟨f.content ++ l, f.mode, f.uid, f.gid, true⟩ ∧
    Fs.lookup (flogit env file num sz "" (l :: rest) fs).2.1 file =
      some ⟨strConcat rest, f.mode, f.uid, f.gid, true⟩ := by
  have hopen : fopenA file fs = fs := by simp [fopenA, hf]
  have happ : appendFile file l fs =
      fsInsert fs file ⟨f.content ++ l, f.mode, f.uid, f.gid, f.isReg⟩ := by
    simp [appendFile, hf]
  have hchk : checksz (appendFile file l fs) file sz = true := by
    rw [happ]
    unfold checksz
    rw [if_neg (by omega : ¬ sz ≤ 0), lookup_fsInsert, if_pos rfl]
    exact decide_eq_true (by change sz < ((f.content ++ l).length : Int); omega)
  have hf1 : Fs.lookup (appendFile file l fs) file =
      some ⟨f.content ++ l, f.mode, f.uid, f.gid, f.isReg⟩ := by
    rw [happ]; simp [lookup_fsInsert]
  obtain ⟨hrc, hactive, hgen1, _⟩ :=
    logrotate_success env file num sz (appendFile file l fs)
      ⟨f.content ++ l, f.mode, f.uid, f.gid, f.isReg⟩ hf1 hreg hsz hover hnum
      (by rw [henv])
  have hopen2 : fopenA file (logrotate env file num sz (appendFile file l fs)).2.1 =
      (logrotate env file num sz (appendFile file l fs)).2.1 := by
    rw [hreg] at hactive
    simp [fopenA, hactive]
  obtain ⟨hn, _, hcontent, hframe⟩ :=
    streamLoop_steady env file num sz hsz rest
      (logrotate env file num sz (appendFile file l fs)).2.1
      ⟨"", f.mode, f.uid, f.gid, true⟩
      (by rw [hreg] at hactive; exact hactive)
      (by intro i hi; simpa [String.empty_append] using hrest i hi)
  rw [flogit]
  simp only [ne_eq, not_true_eq_false, if_false, streamLoop]
  rw [hopen]
  simp only [hchk, if_pos]
  rw [hopen2]
  refine ⟨by rw [hn], ?_, ?_⟩
  · rw [hframe (genPath file 1) (genPath_ne_self file 1)]
    rw [hreg] at hgen1
    exact hgen1
  · rw [hcontent]
    simp [String.empty_append]

theorem agedRename_renames (env : Env) (file : String) (n : Nat) (fs : Fs) :
    ((agedRename env file n fs).2.2).filterMap renOf =
      ((List.range' 3 (n - 2)).reverse).map
        (fun c => (gzPath file (c - 1), gzPath file c)) ++
      ((List.range' 1 n).reverse).map
        (fun c => (genPath file (c - 1), genPath file c)) ++
      [(file, genPath file 1)] := by
  unfold agedRename
  simp only [List.filterMap_append, gzAgeLoop_renames, ageLoop_renames]
  simp [renOf]

/-- C1: a triggered rotation with a positive generation count attempts
its renames in exactly this order: compressed generations aged from
num down to 3, then uncompressed generations aged from num down to 1,
and finally the active path into slot 1.  Renames of missing sources
are skipped by renameSys without touching the filesystem. -/
theorem c1_rotation_rename_order (env : Env) (file : String) (num sz : Int)
    (fs : Fs) (f : FileObj) (hf : Fs.lookup fs file = some f)
    (hreg : f.isReg = true) (hsz : 0 < sz)
    (hover : sz < (f.content.length : Int)) (hnum : 1 ≤ num) :
    ((logrotate env file num sz fs).2.2).filterMap renOf =
      ((List.range' 3 (num.toNat - 2)).reverse).map
        (fun c => (gzPath file (c - 1), gzPath file c)) ++
      ((List.range' 1 num.toNat).reverse).map
        (fun c => (genPath file (c - 1), genPath file c)) ++
      [(file, genPath file 1)] := by
  simp only [logrotate, hf]
  rw [if_pos ⟨hsz, hreg, hover⟩, if_pos (by omega : (0 : Int) < num)]
  split
  · simp only [List.filterMap_append, agedRename_renames]
    simp [renOf]
  · simp only [List.filterMap_append, agedRename_renames]
    simp [renOf]

theorem c1_rotation_rename_order_witness :
    Fs.lookup [("log", (⟨"ab", 420, 0, 0, true⟩ : FileObj))] "log" =
      some ⟨"ab", 420, 0, 0, true⟩ ∧
    ((logrotate ⟨fun _ _ => false, false⟩ "log" 3 1
        [("log", ⟨"ab", 420, 0, 0, true⟩)]).2.2).filterMap renOf =
      ((List.range' 3 ((3 : Int).toNat - 2)).reverse).map
        (fun c => (gzPath "log" (c - 1), gzPath "log" c)) ++
      ((List.range' 1 (3 : Int).toNat).reverse).map
        (fun c => (genPath "log" (c - 1), genPath "log" c)) ++
      [("log", genPath "log" 1)] :=
  ⟨rfl, c1_rotation_rename_order ⟨fun _ _ => false, false⟩ "log" 3 1
    [("log", ⟨"ab", 420, 0, 0, true⟩)] ⟨"ab", 420, 0, 0, true⟩ rfl rfl
    (by decide) (by decide) (by decide)⟩

/-- C2: in the streaming path, a write that pushes the active file
over the threshold causes exactly one rotation before the next line is
appended; the pre-rotation bytes land in slot 1, and because the line
buffer is cleared before the reopen, the recreated active file holds
only the lines written afterwards. -/
theorem c2_stream_single_rotation (env : Env) (file : String) (num sz : Int)
    (f : FileObj) (l : String) (rest : List String) (fs : Fs)
    (hf : Fs.lookup fs file = some f) (hreg : f.isReg = true)
    (henv : env.renameFail = fun _ _ => false)
    (hnum : 1 ≤ num) (hsz : 0 < sz)
    (hover : sz < ((f.content ++ l).length : Int))
    (hrest : ∀ i ∈ List.range (rest.length + 1),
        ((strConcat (rest.take i)).length : Int) ≤ sz) :
    (flogit env file num sz "" (l :: rest) fs).2.2.2 = 1 ∧
    Fs.lookup (flogit env file num sz "" (l :: rest) fs).2.1 (genPath file 1) =
      some ⟨f.content ++ l, f.mode, f.uid, f.gid, true⟩ ∧
    Fs.lookup (flogit env file num sz "" (l :: rest) fs).2.1 file =
      some ⟨strConcat rest, f.mode, f.uid, f.gid, true⟩ :=
  rotate_step env file num sz f l rest fs hf hreg henv hnum hsz hover hrest

theorem c2_stream_single_rotation_witness :
    (flogit ⟨fun _ _ => false, false⟩ "log" 1 1 ""
        ["ab", "x"] [("log", ⟨"", 416, 3, 4, true⟩)]).2.2.2 = 1 ∧
    Fs.lookup (flogit ⟨fun _ _ => false, false⟩ "log" 1 1 ""
        ["ab", "x"] [("log", ⟨"", 416, 3, 4, true⟩)]).2.1 (genPath "log" 1) =
      some ⟨"" ++ "ab", 416, 3, 4, true⟩ ∧
    Fs.lookup (flogit ⟨fun _ _ => false, false⟩ "log" 1 1 ""
        ["ab", "x"] [("log", ⟨"", 416, 3, 4, true⟩)]).2.1 "log" =
      some ⟨strConcat ["x"], 416, 3, 4, true⟩ :=
  c2_stream_single_rotation ⟨fun _ _ => false, false⟩ "log" 1 1
    ⟨"", 416, 3, 4, true⟩ "ab" ["x"] [("log", ⟨"", 416, 3, 4, true⟩)]
    rfl rfl rfl (by decide) (by decide) (by decide) (by decide)

/-- C3: while every flushed prefix stays at or under the threshold, no
rotation runs and the active file ends holding exactly the in-order
concatenation of the written lines. -/
theorem c3_under_threshold_appends (env : Env) (file : String) (num sz : Int)
    (lines : List String) (fs : Fs) (f : FileObj)
    (hf : Fs.lookup fs file = some f) (hc : f.content = "") (hsz : 0 < sz)
    (hb : ∀ i ∈ List.range (lines.length + 1),
        ((strConcat (lines.take i)).length : Int) ≤ sz) :
    (flogit env file num sz "" lines fs).2.2.2 = 0 ∧
    Fs.lookup (flogit env file num sz "" lines fs).2.1 file =
      some ⟨strConcat lines, f.mode, f.uid, f.gid, f.isReg⟩ := by
  have hopen : fopenA file fs = fs := by simp [fopenA, hf]
  obtain ⟨hn, _, hcontent, _⟩ :=
    streamLoop_steady env file num sz hsz lines fs f hf
      (by intro i hi; rw [hc]; simpa [String.empty_append] using hb i hi)
  rw [flogit]
  simp only [ne_eq, not_true_eq_false, if_false]
  rw [hopen]
  refine ⟨hn, ?_⟩
  rw [hcontent, hc]
  simp [String.empty_append]

theorem c3_under_threshold_appends_witness :
    (flogit ⟨fun _ _ => false, false⟩ "log" 5 100 ""
        ["ab", "cd"] [("log", ⟨"", 420, 0, 0, true⟩)]).2.2.2 = 0 ∧
    Fs.lookup (flogit ⟨fun _ _ => false, false⟩ "log" 5 100 ""
        ["ab", "cd"] [("log", ⟨"", 420, 0, 0, true⟩)]).2.1 "log" =
      some ⟨strConcat ["ab", "cd"], 420, 0, 0, true⟩ :=
  c3_under_threshold_appends ⟨fun _ _ => false, false⟩ "log" 5 100
    ["ab", "cd"] [("log", ⟨"", 420, 0, 0, true⟩)] ⟨"", 420, 0, 0, true⟩
    rfl rfl (by decide) (by decide)

/-- C4: when the final rename into slot 1 succeeds, the recreated
active file carries the mode, owner and group stat-ed at the start of
the rotation, and the recreation step leaves every other path exactly
as the aging ladders and final rename left it. -/
theorem c4_recreate_preserves_attrs (env : Env) (file : String) (num sz : Int)
    (fs : Fs) (f : FileObj) (q : String) (hq : q ≠ file)
    (hf : Fs.lookup fs file = some f) (hreg : f.isReg = true) (hsz : 0 < sz)
    (hover : sz < (f.content.length : Int)) (hnum : 1 ≤ num)
    (hrf : env.renameFail file (genPath file 1) = false) :
    Fs.lookup (logrotate env file num sz fs).2.1 file =
      some ⟨"", f.mode, f.uid, f.gid, true⟩ ∧
    Fs.lookup (logrotate env file num sz fs).2.1 q =
      Fs.lookup (agedRename env file num.toNat fs).2.1 q := by
  obtain ⟨_, h2, _, h4⟩ :=
    logrotate_success env file num sz fs f hf hreg hsz hover hnum hrf
  exact ⟨h2, h4 q hq⟩

theorem c4_recreate_preserves_attrs_witness :
    ("log.1" : String) ≠ "log" ∧
    Fs.lookup (logrotate ⟨fun _ _ => false, false⟩ "log" 2 1
        [("log", ⟨"abc", 416, 3, 4, true⟩),
         ("log.1", ⟨"old", 384, 5, 6, true⟩)]).2.1 "log" =
      some ⟨"", 416, 3, 4, true⟩ ∧
    Fs.lookup (logrotate ⟨fun _ _ => false, false⟩ "log" 2 1
        [("log", ⟨"abc", 416, 3, 4, true⟩),
         ("log.1", ⟨"old", 384, 5, 6, true⟩)]).2.1 "log.1" =
      Fs.lookup (agedRename ⟨fun _ _ => false, false⟩ "log" (2 : Int).toNat
        [("log", ⟨"abc", 416, 3, 4, true⟩),
         ("log.1", ⟨"old", 384, 5, 6, true⟩)]).2.1 "log.1" :=
  ⟨by decide,
    (c4_recreate_preserves_attrs ⟨fun _ _ => false, false⟩ "log" 2 1
      [("log", ⟨"abc", 416, 3, 4, true⟩), ("log.1", ⟨"old", 384, 5, 6, true⟩)]
      ⟨"abc", 416, 3, 4, true⟩ "log.1" (by decide) rfl rfl (by decide)
      (by decide) (by decide) rfl).1,
    (c4_recreate_preserves_attrs ⟨fun _ _ => false, false⟩ "log" 2 1
      [("log", ⟨"abc", 416, 3, 4, true⟩), ("log.1", ⟨"old", 384, 5, 6, true⟩)]
      ⟨"abc", 416, 3, 4, true⟩ "log.1" (by decide) rfl rfl (by decide)
      (by decide) (by decide) rfl).2⟩

/-- C5: when the final rename of the active path into slot 1 fails,
the rotation falls back to truncating the active file in place to
length zero and returns 0, and no creation event happens, so no new
file is put at the active path. -/
theorem c5_rename_fail_truncates (env : Env) (file : String) (num sz : Int)
    (fs : Fs) (f : FileObj) (hf : Fs.lookup fs file = some f)
    (hreg : f.isReg = true) (hsz : 0 < sz)
    (hover : sz < (f.content.length : Int)) (hnum : 1 ≤ num)
    (hrf : env.renameFail file (genPath file 1) = true) :
    (logrotate env file num sz fs).1 = 0 ∧
    Fs.lookup (logrotate env file num sz fs).2.1 file =
      some ⟨"", f.mode, f.uid, f.gid, f.isReg⟩ ∧
    ((logrotate env file num sz fs).2.2).all (fun e => !e.isCreat) = true :=
  logrotate_rename_fail env file num sz fs f hf hreg hsz hover hnum hrf

theorem c5_rename_fail_truncates_witness :
    (logrotate ⟨fun o _ => o == "log", false⟩ "log" 2 1
        [("log", ⟨"ab", 420, 7, 8, true⟩)]).1 = 0 ∧
    Fs.lookup (logrotate ⟨fun o _ => o == "log", false⟩ "log" 2 1
        [("log", ⟨"ab", 420, 7, 8, true⟩)]).2.1 "log" =
      some ⟨"", 420, 7, 8, true⟩ ∧
    ((logrotate ⟨fun o _ => o == "log", false⟩ "log" 2 1
        [("log", ⟨"ab", 420, 7, 8, true⟩)]).2.2).all
      (fun e => !e.isCreat) = true :=
  c5_rename_fail_truncates ⟨fun o _ => o == "log", false⟩ "log" 2 1
    [("log", ⟨"ab", 420, 7, 8, true⟩)] ⟨"ab", 420, 7, 8, true⟩
    rfl rfl (by decide) (by decide) (by decide) rfl

/-- C6: evaluation of the compression step with gzip unavailable.  The
rotation returns 0 (no error surfaced), but the uncompressed slot-2
file is gone: the trace shows the gzip invocation failing and the
unconditional remove succeeding, deleting the aged log. -/
theorem c6_gzip_unavailable_deletes_slot2 :
    (logrotate ⟨fun _ _ => false, false⟩ "log" 2 1
        [("log", ⟨"ab", 420, 7, 8, true⟩),
         ("log.1", ⟨"c", 420, 7, 8, true⟩)]).1 = 0 ∧
    Fs.lookup (logrotate ⟨fun _ _ => false, false⟩ "log" 2 1
        [("log", ⟨"ab", 420, 7, 8, true⟩),
         ("log.1", ⟨"c", 420, 7, 8, true⟩)]).2.1 (genPath "log" 2) = none ∧
    Fs.lookup (logrotate ⟨fun _ _ => false, false⟩ "log" 2 1
        [("log", ⟨"ab", 420, 7, 8, true⟩),
         ("log.1", ⟨"c", 420, 7, 8, true⟩)]).2.1 (gzPath "log" 2) = none ∧
    Event.gz (genPath "log" 2) false ∈
      (logrotate ⟨fun _ _ => false, false⟩ "log" 2 1
        [("log", ⟨"ab", 420, 7, 8, true⟩),
         ("log.1", ⟨"c", 420, 7, 8, true⟩)]).2.2 ∧
    Event.rm (genPath "log" 2) true ∈
      (logrotate ⟨fun _ _ => false, false⟩ "log" 2 1
        [("log", ⟨"ab", 420, 7, 8, true⟩),
         ("log.1", ⟨"c", 420, 7, 8, true⟩)]).2.2 := by
  decide

/-- Value of a leading decimal digit prefix, used by the atoi and
strtobytes models. -/
def digitsVal (cs : List Char) : Nat :=
  (cs.takeWhile Char.isDigit).foldl (fun acc c => acc * 10 + (c.toNat - 48)) 0

/-- atoi(3): an optional sign followed by a decimal digit prefix; a
token without digits yields zero. -/
def atoi (s : String) : Int :=
  match s.data with
  | '-' :: cs => - (digitsVal cs : Int)
  | '+' :: cs => (digitsVal cs : Int)
  | cs => (digitsVal cs : Int)

/-- Modelled from the spec: strtobytes comes from the compat library
that is not part of this tree.  Per the spec it parses a SIZE byte
count given as decimal digits with an optional kilobyte, megabyte or
gigabyte suffix (binary multiples); a token without a leading digit
yields -1. -/
def strtobytes (s : String) : Int :=
  let ds := s.data.takeWhile Char.isDigit
  let rest := s.data.dropWhile Char.isDigit
  if ds = [] then -1
  else
    match rest with
    | [] => (digitsVal ds : Int)
    | ['k'] => (digitsVal ds : Int) * 1024
    | ['K'] => (digitsVal ds : Int) * 1024
    | ['m'] => (digitsVal ds : Int) * 1024 * 1024
    | ['M'] => (digitsVal ds : Int) * 1024 * 1024
    | ['g'] => (digitsVal ds : Int) * 1024 * 1024 * 1024
    | ['G'] => (digitsVal ds : Int) * 1024 * 1024 * 1024
    | _ => -1

/-- strchr(buf, colon) as used by parse_rotation: the characters
before the first colon and, when a colon is present, those after
it. -/
def splitAtColon : List Char → List Char × Option (List Char)
  | [] => ([], none)
  | c :: rest =>
    if c = ':' then ([], some rest)
    else
      let r := splitAtColon rest
      (c :: r.1, r.2)

/-- parse_rotation from logger.c: strlcpy the argument into a 100-byte
buffer (truncating to 99 characters), split at the first colon, read
the count with atoi and the size with strtobytes; only a positive size
and a nonzero count overwrite the caller defaults. -/
def parse_rotation (optarg : String) (size num : Int) : Int × Int :=
  let buf := optarg.data.take 99
  let sp := splitAtColon buf
  let cnt : Int :=
    match sp.2 with
    | none => 0
    | some cs => atoi (String.mk cs)
  let sz := strtobytes (String.mk sp.1)
  let size1 := if 0 < sz then sz else size
  let num1 := if cnt ≠ 0 then cnt else num
  (size1, num1)

/-- A stream write of 204801 bytes against the default 200 KiB
threshold and default count rotates and creates slot 1; shared by the
C7 statements. -/
theorem rotationAtDefaultThreshold :
    Fs.lookup (flogit ⟨fun _ _ => false, false⟩ "log" 5 204800 ""
        [String.mk (List.replicate 204801 'a')]
        [("log", ⟨"", 420, 0, 0, true⟩)]).2.1 (genPath "log" 1) =
      some ⟨"" ++ String.mk (List.replicate 204801 'a'), 420, 0, 0, true⟩ := by
  have hlen : ((("" : String) ++ String.mk (List.replicate 204801 'a')).length : Int)
      = 204801 := by
    rw [String.empty_append,
      show (String.mk (List.replicate 204801 'a')).length
        = (List.replicate 204801 'a').length from rfl,
      List.length_replicate]
    rfl
  exact (rotate_step ⟨fun _ _ => false, false⟩ "log" 5 204800
    ⟨"", 420, 0, 0, true⟩ (String.mk (List.replicate 204801 'a')) []
    [("log", ⟨"", 420, 0, 0, true⟩)] rfl rfl rfl (by decide) (by decide)
    (by rw [show ((⟨"", 420, 0, 0, true⟩ : FileObj)).content = "" from rfl, hlen]; decide)
    (by decide)).2.1

/-- C7 counterexample: the rotation token 0 leaves the configuration
at its defaults, and with those defaults a write taking the file past
204800 bytes does create slot 1, so rotation is not disabled. -/
theorem c7_counterexample_zero_size :
    parse_rotation "0" 204800 5 = (204800, 5) ∧
    (Fs.lookup (flogit ⟨fun _ _ => false, false⟩ "log"
        (parse_rotation "0" 204800 5).2 (parse_rotation "0" 204800 5).1 ""
        [String.mk (List.replicate 204801 'a')]
        [("log", ⟨"", 420, 0, 0, true⟩)]).2.1 (genPath "log" 1)).isSome = true := by
  have hp : parse_rotation "0" 204800 5 = (204800, 5) := by decide
  refine ⟨hp, ?_⟩
  rw [hp]
  show (Fs.lookup (flogit ⟨fun _ _ => false, false⟩ "log" 5 204800 ""
      [String.mk (List.replicate 204801 'a')]
      [("log", ⟨"", 420, 0, 0, true⟩)]).2.1 (genPath "log" 1)).isSome = true
  rw [rotationAtDefaultThreshold]
  rfl

/-- C7 amended: a SIZE token of 0 does not disable rotation; it leaves
both the threshold and the generation count unchanged, and with the
default threshold a large enough write still rotates and creates the
slot-1 generation file. -/
theorem c7_zero_size_keeps_defaults :
    (∀ size num : Int, parse_rotation "0" size num = (size, num)) ∧
    (Fs.lookup (flogit ⟨fun _ _ => false, false⟩ "log" 5 204800 ""
        [String.mk (List.replicate 204801 'a')]
        [("log", ⟨"", 420, 0, 0, true⟩)]).2.1 (genPath "log" 1)).isSome = true := by
  refine ⟨fun size num => by rfl, ?_⟩
  rw [rotationAtDefaultThreshold]
  rfl

/-- A 101-byte stream write against threshold 100 and count 5 rotates
and creates slot 1; shared by the C8 statements. -/
theorem rotationAtThreshold100 :
    Fs.lookup (flogit ⟨fun _ _ => false, false⟩ "log" 5 100 ""
        [String.mk (List.replicate 101 'a')]
        [("log", ⟨"", 420, 0, 0, true⟩)]).2.1 (genPath "log" 1) =
      some ⟨"" ++ String.mk (List.replicate 101 'a'), 420, 0, 0, true⟩ := by
  have hlen : ((("" : String) ++ String.mk (List.replicate 101 'a')).length : Int)
      = 101 := by
    rw [String.empty_append,
      show (String.mk (List.replicate 101 'a')).length
        = (List.replicate 101 'a').length from rfl,
      List.length_replicate]
    rfl
  exact (rotate_step ⟨fun _ _ => false, false⟩ "log" 5 100
    ⟨"", 420, 0, 0, true⟩ (String.mk (List.replicate 101 'a')) []
    [("log", ⟨"", 420, 0, 0, true⟩)] rfl rfl rfl (by decide) (by decide)
    (by rw [show ((⟨"", 420, 0, 0, true⟩ : FileObj)).content = "" from rfl, hlen]; decide)
    (by decide)).2.1

/-- C8 counterexample: the token 100:0 sets the threshold to 100 but
leaves max_generations at 5, not 0, and an over-threshold write then
performs a full rotation that creates the generation file at slot 1
instead of truncating in place. -/
theorem c8_counterexample_zero_count :
    parse_rotation "100:0" 204800 5 = (100, 5) ∧
    (Fs.lookup (flogit ⟨fun _ _ => false, false⟩ "log"
        (parse_rotation "100:0" 204800 5).2 (parse_rotation "100:0" 204800 5).1 ""
        [String.mk (List.replicate 101 'a')]
        [("log", ⟨"", 420, 0, 0, true⟩)]).2.1 (genPath "log" 1)).isSome = true := by
  have hp : parse_rotation "100:0" 204800 5 = (100, 5) := by decide
  refine ⟨hp, ?_⟩
  rw [hp]
  show (Fs.lookup (flogit ⟨fun _ _ => false, false⟩ "log" 5 100 ""
      [String.mk (List.replicate 101 'a')]
      [("log", ⟨"", 420, 0, 0, true⟩)]).2.1 (genPath "log" 1)).isSome = true
  rw [rotationAtThreshold100]
  rfl

/-- C8 amended: a COUNT of zero in the rotation token is ignored, so
max_generations keeps the caller default; an over-threshold write then
runs the normal generational rotation and creates slot 1. -/
theorem c8_zero_count_keeps_default :
    (∀ size num : Int, parse_rotation "100:0" size num = (100, num)) ∧
    (Fs.lookup (flogit ⟨fun _ _ => false, false⟩ "log" 5 100 ""
        [String.mk (List.replicate 101 'a')]
        [("log", ⟨"", 420, 0, 0, true⟩)]).2.1 (genPath "log" 1)).isSome = true := by
  refine ⟨fun size num => by rfl, ?_⟩
  rw [rotationAtThreshold100]
  rfl

/-- usage from logger.c: prints the help text and returns its argument
as the process exit code. -/
def usage (code : Int) : Int := code

/-- The option characters of the getopt string of main. -/
def optChars : List Char := ['?', 'f', 'p', 'r', 's', 't', 'v']

/-- getopt(3) on one option character: recognized characters are
returned as themselves, anything else is reported as a question
mark. -/
def getoptRet (c : Char) : Char :=
  if c ∈ optChars then c else '?'

/-- The option switch of main: f, p, r, s and t store their settings
and continue, v prints the version and returns 0, and every other
getopt result, including the question mark produced for unrecognized
options, falls to the default case returning usage(0). -/
def mainOptLoop : List Char → Option Int
  | [] => none
  | c :: rest =>
    let g := getoptRet c
    if g = 'f' ∨ g = 'p' ∨ g = 'r' ∨ g = 's' ∨ g = 't' then mainOptLoop rest
    else if g = 'v' then some 0
    else some (usage 0)

/-- C9 counterexample: an unrecognized option makes the process exit
with status 0, not a nonzero status. -/
theorem c9_counterexample_unknown_option :
    mainOptLoop ['x'] = some 0 := by decide

/-- C9 amended: an option flag outside the recognized set makes main
return usage(0), so the process prints the usage text and exits with
status 0. -/
theorem c9_unknown_option_exits_zero (c : Char) (rest : List Char)
    (hc : c ∉ (['f', 'p', 'r', 's', 't', 'v'] : List Char)) :
    mainOptLoop (c :: rest) = some 0 := by
  simp only [List.mem_cons, List.not_mem_nil, or_false] at hc
  push_neg at hc
  obtain ⟨h1, h2, h3, h4, h5, h6⟩ := hc
  by_cases hm : c ∈ optChars
  · simp only [optChars, List.mem_cons, List.not_mem_nil, or_false] at hm
    rcases hm with rfl | rfl | rfl | rfl | rfl | rfl | rfl
    · simp [mainOptLoop, getoptRet, optChars, usage]
    · exact absurd rfl h1
    · exact absurd rfl h2
    · exact absurd rfl h3
    · exact absurd rfl h4
    · exact absurd rfl h5
    · exact absurd rfl h6
  · rw [mainOptLoop]
    simp only [getoptRet, if_neg hm]
    simp [usage]

theorem c9_unknown_option_exits_zero_witness :
    ('x' ∉ (['f', 'p', 'r', 's', 't', 'v'] : List Char)) ∧
    mainOptLoop ['x', 'v'] = some 0 :=
  ⟨by decide, c9_unknown_option_exits_zero 'x' ['v'] (by decide)⟩

/-- The size_t modulus of the 64-bit host. -/
def sizeTMod : Nat := 2 ^ 64

/-- One step of the argument-joining loop of main: snprintf formats
the token plus a trailing space into buf at offset pos with capacity
len and returns the untruncated formatted length; the loop adds that
return to pos and subtracts it from len in size_t arithmetic. -/
def joinStep (pos len : Nat) (arg : String) : Nat × Nat :=
  ((pos + (arg.length + 1)) % sizeTMod,
    (len + sizeTMod - (arg.length + 1) % sizeTMod) % sizeTMod)

/-- The successive (pos, len) states after each token append. -/
def joinStates : List String → Nat → Nat → List (Nat × Nat)
  | [], _, _ => []
  | a :: rest, pos, len =>
    let st := joinStep pos len a
    st :: joinStates rest st.1 st.2

/-- The bound claimed for the joining loop: after every append the
position stays below the 512-byte buffer and the remaining capacity
equals 512 minus the position. -/
def joinInv (states : List (Nat × Nat)) : Prop :=
  ∀ st ∈ states, st.1 < 512 ∧ st.1 + st.2 = 512

set_option maxRecDepth 40000 in
/-- C10: two 300-byte tokens break the claimed bound: snprintf returns
the untruncated length 301 each time, so after the second token pos is
602, past the 512-byte buffer, and len has wrapped around below zero
in size_t arithmetic; the append of the pending third token therefore
starts at offset 602, outside the buffer. -/
theorem c10_join_loop_overflow :
    ¬ joinInv (joinStates [String.mk (List.replicate 300 'a'),
        String.mk (List.replicate 300 'a'), "x"] 0 512) ∧
    (602, sizeTMod - 90) ∈ joinStates [String.mk (List.replicate 300 'a'),
        String.mk (List.replicate 300 'a'), "x"] 0 512 := by
  constructor
  · intro h
    have := (h (602, sizeTMod - 90) (by decide)).1
    omega
  · decide

end Logger
